import Mathlib

/-!
Verification of the gdal2mbtiles tile-pyramid core (`gdal2mbtiles/vips.py`).

The development shallowly embeds the geometry engine (`stretch`, `shrink`,
`tms_align`), the tile slicer (`TmsTiles._slice` / `TmsTiles.slice`), the
deduplicating render pipeline (`TmsTile.render`), the level transitions
(`TmsTiles.downsample` / `TmsTiles.upsample`) and the pyramid driver
(`image_pyramid`).

Conventions of the embedding:
* Python (2) machine floats are modelled by exact rationals; Python ints by ℤ/ℕ.
* `int(...)` truncation toward zero is `pyTrunc`; Python 2 `round` (half away
  from zero) is `pyRound`; Python `%` on ints with a positive modulus is
  `Int.emod`.
* Fallible code returns `Except VErr`; an error result carries no image, so a
  failing call produces no output.
* The image-processing library `vipsCC` and the GDAL reader are external
  collaborators (spec sections 1 and 6); their primitives are modelled from
  their declared interfaces, as documented on each definition.
* Pixels are abstracted to one natural number per pixel; the raw byte buffer
  of an image is its row-major pixel list, so bytewise buffer equality is
  pointwise pixel equality.
-/

/-- Python `int()` applied to a real value: truncation toward zero. -/
def pyTrunc (q : ℚ) : ℤ := if 0 ≤ q then ⌊q⌋ else -⌊-q⌋

/-- Python 2 `round`: round half away from zero. -/
def pyRound (q : ℚ) : ℤ := if 0 ≤ q then ⌊q + 1/2⌋ else ⌈q - 1/2⌉

/-- Python `xrange(0, stop, step)` for a positive `step`. -/
def pyRangeN (stop step : ℕ) : List ℕ :=
  (List.range ((stop + step - 1) / step)).map (· * step)

/-- Python `range(a, b)` over integers. -/
def pyRangeZ (a b : ℤ) : List ℤ :=
  (List.range (b - a).toNat).map fun i => a + i

/-- The error kinds surfaced by the core (spec section 7), together with the
Python-level exceptions the code can actually raise (`ZeroDivisionError`,
`AssertionError`, `TypeError`).  `misaligned` is the `ValueError` raised by
`TmsTiles.slice`; `invalidScale` the `ValueError` of `stretch`/`shrink`. -/
inductive VErr where
  | invalidScale
  | zeroDivision
  | assertionError
  | typeError
  | misaligned
  | invalidResolution
  deriving DecidableEq

/-- The image object of `gdal2mbtiles.vips.VImage`: a raster with `Xsize()`
and `Ysize()` dimensions and per-pixel content (one abstract sample per
pixel). -/
structure VImage where
  Xsize : ℕ
  Ysize : ℕ
  pix : ℕ → ℕ → ℕ

/-- `VImage.extract_area` (vips.py line 52): the `left top width height`
window of the image.  Modelled from the spec: the underlying vipsCC
primitive is the external library's windowed view (spec section 3). -/
def VImage.extract_area (img : VImage) (left top width height : ℕ) : VImage :=
  ⟨width, height, fun c r => img.pix (left + c) (top + r)⟩

/-- `VImage.tobuffer`: the raw pixel buffer, row-major.  Modelled from the
spec: the external library's raw-buffer export (spec section 6,
`to_raw_bytes`). -/
def VImage.tobuffer (img : VImage) : List ℕ :=
  (List.range img.Ysize).flatMap fun r =>
    (List.range img.Xsize).map fun c => img.pix c r

/-- Modelled from the spec: the external image library's `embed` primitive
(spec section 3) places the image at offset `(x, y)` inside a new `w × h`
canvas filled with the background value. -/
def VImage.embed (img : VImage) (bg : ℕ) (x y w h : ℕ) : VImage :=
  ⟨w, h, fun c r =>
    if x ≤ c ∧ c < x + img.Xsize ∧ y ≤ r ∧ r < y + img.Ysize then
      img.pix (c - x) (r - y)
    else bg⟩

/-- Modelled from the spec: the external image library's `affine` primitive
(spec section 6).  Only its output dimensions are specified by the spec's
declared interface; the resampled pixel content belongs to the external
library and no claim depends on it, so the content function is carried
through unchanged. -/
def VImage.affine (img : VImage) (_a _b _c _d _ox _oy : ℚ) (_outX _outY : ℤ)
    (outW outH : ℕ) : VImage :=
  ⟨outW, outH, img.pix⟩

/-- `VImage.stretch` (vips.py lines 57-114).  Scale guards first; then the
output size `int(Xsize * xscale) × int(Ysize * yscale)`; the affine
coefficient `(N - 1) / (Xsize - 1)` raises `ZeroDivisionError` on a
one-pixel-wide (or -tall) image. -/
def VImage.stretch (img : VImage) (xscale yscale : ℚ) : Except VErr VImage :=
  if xscale < 1 then .error .invalidScale
  else if yscale < 1 then .error .invalidScale
  else
    let N : ℤ := pyTrunc ((img.Xsize : ℚ) * xscale)
    let M : ℤ := pyTrunc ((img.Ysize : ℚ) * yscale)
    if (img.Xsize : ℤ) - 1 = 0 then .error .zeroDivision
    else if (img.Ysize : ℤ) - 1 = 0 then .error .zeroDivision
    else
      let a : ℚ := ((N : ℚ) - 1) / ((img.Xsize : ℚ) - 1)
      let d : ℚ := ((M : ℚ) - 1) / ((img.Ysize : ℚ) - 1)
      .ok (img.affine a 0 0 d 0 0 0 0 N.toNat M.toNat)

/-- `VImage.shrink` (vips.py lines 116-174).  Guards `0.0 < scale <= 1.0`;
output size `int(Xsize * xscale) × int(Ysize * yscale)` with the
corner-alignment affine coefficients. -/
def VImage.shrink (img : VImage) (xscale yscale : ℚ) : Except VErr VImage :=
  if ¬ (0 < xscale ∧ xscale ≤ 1) then .error .invalidScale
  else if ¬ (0 < yscale ∧ yscale ≤ 1) then .error .invalidScale
  else
    .ok (img.affine xscale 0 0 yscale ((xscale - 1) / 2) ((yscale - 1) / 2) 0 0
      (pyTrunc ((img.Xsize : ℚ) * xscale)).toNat
      (pyTrunc ((img.Ysize : ℚ) * yscale)).toNat)

/-- The left padding of `tms_align` (vips.py line 190):
`int(round(offset.x * tile_width)) % tile_width`. -/
def tmsAlignX (tile_width : ℕ) (offx : ℚ) : ℤ :=
  (pyRound (offx * tile_width)).emod tile_width

/-- The top padding of `tms_align` (vips.py line 191):
`int(round(Ysize - offset.y * tile_height)) % tile_height`. -/
def tmsAlignY (tile_height Ysize : ℕ) (offy : ℚ) : ℤ :=
  (pyRound ((Ysize : ℚ) - offy * tile_height)).emod tile_height

/-- One output extent of `tms_align` (vips.py lines 195-200):
`int(ceil((size + pad / 2) / tile_side) * tile_side)`. -/
def tmsAlignW (tile_side size : ℕ) (pad : ℤ) : ℤ :=
  ⌈((size : ℚ) + (pad : ℚ) / 2) / (tile_side : ℚ)⌉ * tile_side

/-- `VImage.tms_align` (vips.py lines 176-208).  The `assert x == y == 0` of
the no-change branch is modelled away; the theorem `tms_align_assert_safe`
shows it can never fire. -/
def VImage.tms_align (img : VImage) (tile_width tile_height : ℕ)
    (offset : ℚ × ℚ) : VImage :=
  let x := tmsAlignX tile_width offset.1
  let y := tmsAlignY tile_height img.Ysize offset.2
  let width := tmsAlignW tile_width img.Xsize x
  let height := tmsAlignW tile_height img.Ysize y
  if width = (img.Xsize : ℤ) ∧ height = (img.Ysize : ℤ) then img
  else img.embed 0 x.toNat y.toNat width.toNat height.toNat

/-- `TILE_SIDE`.  Modelled from the spec: the `constants` module is not part
of the provided source; the spec fixes tiles at 256 by 256 pixels by
convention (spec glossary). -/
def TILE_SIDE : ℕ := 256

/-- The components of a tile's relative file path
`resolution/offsetx-offsety-key.png` produced by
`TmsTile.generate_filepath` (vips.py lines 265-271); the structure keeps the
path's components rather than the rendered string. -/
structure TilePath where
  res : Option ℤ
  off : ℤ × ℤ
  key : ℕ
  deriving DecidableEq

/-- One dispatched output of `TmsTile.render` (vips.py lines 273-286): either
a PNG encode submitted to the worker pool at the tile's path, or a symlink
at the tile's path pointing at the first-seen path of the same hash. -/
inductive Entry where
  | file (fp : TilePath)
  | symlink (fp : TilePath) (target : TilePath)
  deriving DecidableEq

/-- The path at which an entry is written. -/
def Entry.fp : Entry → TilePath
  | .file fp => fp
  | .symlink fp _ => fp

/-- A single tile as handed to `TmsTile.render`: its raw buffer, TMS offset
and resolution (the hasher and output directory are carried by the
dispatcher). -/
structure Tile where
  buf : List ℕ
  off : ℤ × ℤ
  res : Option ℤ
  deriving DecidableEq

/-- The relative path `TmsTile.render` computes for a tile: its own offset
and resolution with `key = hasher(buffer)` (vips.py lines 275-278). -/
def fpOf (hasher : List ℕ → ℕ) (t : Tile) : TilePath :=
  ⟨t.res, t.off, hasher t.buf⟩

/-- The dispatch loop of `TmsTile.render` (vips.py lines 273-286) over a list
of tiles, threading the `seen` map (hash to first-seen path): a known hash
becomes a symlink to the recorded path, a new hash records its path and
submits a PNG encode. -/
def renderAll (hasher : List ℕ → ℕ) : List Tile → List (ℕ × TilePath) → List Entry
  | [], _ => []
  | t :: ts, seen =>
    match List.lookup (hasher t.buf) seen with
    | some src => .symlink (fpOf hasher t) src :: renderAll hasher ts seen
    | none =>
        .file (fpOf hasher t) ::
          renderAll hasher ts ((hasher t.buf, fpOf hasher t) :: seen)

/-- Specification-level description of the dedup pipeline, written from the
spec's words for comparison with `renderAll` (spec section 4.3): a tile whose
hash already occurred among the previously dispatched tiles becomes a symlink
to the path of the first such tile; otherwise it becomes a regular file. -/
def renderSpec (hasher : List ℕ → ℕ) : List Tile → List Tile → List Entry
  | _, [] => []
  | pre, t :: ts =>
    (match pre.find? (fun t' => hasher t'.buf == hasher t.buf) with
     | some t' => .symlink (fpOf hasher t) (fpOf hasher t')
     | none => .file (fpOf hasher t)) :: renderSpec hasher (pre ++ [t]) ts

/-- `TmsTiles` (vips.py lines 289-310): the image of one level, the tile
dimensions, the TMS offset of the lower-left tile, the optional resolution
and the injectable hasher.  The output directory is an external path and does
not influence any claim, so it is not carried. -/
structure TmsTiles where
  image : VImage
  tile_width : ℕ
  tile_height : ℕ
  offset : ℤ × ℤ
  resolution : Option ℤ
  hasher : List ℕ → ℕ

/-- The tile built by one iteration of `TmsTiles._slice` (vips.py lines
318-334) at image position `(x, y)`: the extracted sub-image's buffer and the
TMS offset `(int(x / tile_width + offset.x),
int((Ysize - y) / tile_height + offset.y - 1))` (true division, then `int`
truncation). -/
def TmsTiles.tileFor (t : TmsTiles) (x y : ℕ) : Tile :=
  { buf := (t.image.extract_area x y t.tile_width t.tile_height).tobuffer,
    off := (pyTrunc ((x : ℚ) / t.tile_width + t.offset.1),
            pyTrunc (((t.image.Ysize : ℚ) - y) / t.tile_height + t.offset.2 - 1)),
    res := t.resolution }

/-- The row-major (top-to-bottom, left-to-right) tile enumeration of
`TmsTiles._slice` (vips.py lines 316-317): `y` over `xrange(0, Ysize,
tile_height)` outside, `x` over `xrange(0, Xsize, tile_width)` inside. -/
def TmsTiles.tileList (t : TmsTiles) : List Tile :=
  (pyRangeN t.image.Ysize t.tile_height).flatMap fun y =>
    (pyRangeN t.image.Xsize t.tile_width).map fun x => t.tileFor x y

/-- `TmsTiles._slice` (vips.py lines 312-336): dispatch every tile through
`TmsTile.render` with a fresh `seen` map.  The worker pool only encodes the
submitted files and is joined before returning, so the dispatched entry list
is the level's output. -/
def TmsTiles._slice (t : TmsTiles) : List Entry :=
  renderAll t.hasher t.tileList []

/-- `TmsTiles.slice` (vips.py lines 338-365): the whole-tile divisibility
checks (each `%` raises `ZeroDivisionError` on a zero tile side, then a
`ValueError` on misalignment), then `_slice`.  Directory creation is external
I/O and not modelled. -/
def TmsTiles.slice (t : TmsTiles) : Except VErr (List Entry) :=
  if t.tile_width = 0 then .error .zeroDivision
  else if t.image.Xsize % t.tile_width ≠ 0 then .error .misaligned
  else if t.tile_height = 0 then .error .zeroDivision
  else if t.image.Ysize % t.tile_height ≠ 0 then .error .misaligned
  else .ok t._slice

/-- `TmsTiles.downsample` (vips.py lines 367-392).  The Python 2 assertion
`resolution >= 0 and resolution == self.resolution - 1` short-circuits: a
negative target fails the assertion before `self.resolution - 1` is
evaluated, which raises `TypeError` when the resolution is `None`.  Then the
halved fractional offset, `shrink(0.5, 0.5)`, `tms_align`, and a new
`TmsTiles` with the truncated offset. -/
def TmsTiles.downsample (t : TmsTiles) (resolution : ℤ) : Except VErr TmsTiles :=
  if resolution < 0 then .error .assertionError
  else
    match t.resolution with
    | none => .error .typeError
    | some r0 =>
      if resolution ≠ r0 - 1 then .error .assertionError
      else
        let offx : ℚ := (t.offset.1 : ℚ) / 2
        let offy : ℚ := (t.offset.2 : ℚ) / 2
        (t.image.shrink (1/2) (1/2)).map fun shrunk =>
          { t with
            image := shrunk.tms_align t.tile_width t.tile_height (offx, offy),
            offset := (pyTrunc offx, pyTrunc offy),
            resolution := some resolution }

/-- `TmsTiles.upsample` (vips.py lines 394-423).  In Python 2 the assertion
`resolution > self.resolution` succeeds when the resolution is `None` (an
int compares greater than `None`), after which `resolution -
self.resolution` raises `TypeError`.  Otherwise `scale = 2 ** (resolution -
self.resolution)`, the scaled integer offset (its `int()` is the identity),
`stretch(scale, scale)` and `tms_align`. -/
def TmsTiles.upsample (t : TmsTiles) (resolution : ℤ) : Except VErr TmsTiles :=
  match t.resolution with
  | none => .error .typeError
  | some r0 =>
    if resolution ≤ r0 then .error .assertionError
    else
      let scale : ℤ := 2 ^ (resolution - r0).toNat
      let off : ℤ × ℤ := (t.offset.1 * scale, t.offset.2 * scale)
      (t.image.stretch (scale : ℚ) (scale : ℚ)).map fun stretched =>
        { t with
          image := stretched.tms_align t.tile_width t.tile_height
            ((off.1 : ℚ), (off.2 : ℚ)),
          offset := off,
          resolution := some resolution }

/-- The native-level `TmsTiles` built by `image_pyramid` (vips.py lines
452-457). -/
def nativeTiles (img : VImage) (lowerLeft : ℤ × ℤ) (resolution : ℤ)
    (hasher : List ℕ → ℕ) : TmsTiles :=
  { image := img, tile_width := TILE_SIDE, tile_height := TILE_SIDE,
    offset := lowerLeft, resolution := some resolution, hasher := hasher }

/-- One resampling loop of `image_pyramid` (vips.py lines 461-470): for each
target resolution, transform the current tiles with `step` and slice them,
collecting every level's dispatched entries. -/
def runLevels (step : TmsTiles → ℤ → Except VErr TmsTiles) :
    List ℤ → TmsTiles → Except VErr (TmsTiles × List (ℤ × List Entry))
  | [], t => .ok (t, [])
  | r :: rs, t =>
    match step t r with
    | .error e => .error e
    | .ok t' =>
      match t'.slice with
      | .error e => .error e
      | .ok es =>
        match runLevels step rs t' with
        | .error e => .error e
        | .ok (tf, rest) => .ok (tf, (r, es) :: rest)

/-- The `if min_resolution is not None` block of `image_pyramid` (vips.py
lines 461-464): the descending loop `reversed(range(min_resolution,
resolution))` of downsample-and-slice; absent, the tiles pass through. -/
def downPhase (minRes : Option ℤ) (resolution : ℤ) (t : TmsTiles) :
    Except VErr (TmsTiles × List (ℤ × List Entry)) :=
  match minRes with
  | none => .ok (t, [])
  | some m => runLevels TmsTiles.downsample (pyRangeZ m resolution).reverse t

/-- The `if max_resolution is not None` block of `image_pyramid` (vips.py
lines 467-470): the ascending loop `range(resolution + 1, max_resolution +
1)` of upsample-and-slice; absent, the tiles pass through. -/
def upPhase (maxRes : Option ℤ) (resolution : ℤ) (t : TmsTiles) :
    Except VErr (TmsTiles × List (ℤ × List Entry)) :=
  match maxRes with
  | none => .ok (t, [])
  | some M => runLevels TmsTiles.upsample (pyRangeZ (resolution + 1) (M + 1)) t

/-- `image_pyramid` (vips.py lines 426-470).  The GDAL dataset reader is an
external collaborator; its outputs (the lower-left TMS extent and the native
resolution) are taken as arguments.  The native level is sliced first, then
the descending downsample loop `reversed(range(min_resolution,
resolution))`, then the ascending upsample loop `range(resolution + 1,
max_resolution + 1)` - the upsample loop continues from whatever tiles the
downsample loop left behind, exactly as in the source.  The result lists
each sliced level's resolution with its dispatched entries, in execution
order. -/
def image_pyramid (img : VImage) (lowerLeft : ℤ × ℤ) (resolution : ℤ)
    (minRes maxRes : Option ℤ) (hasher : List ℕ → ℕ) :
    Except VErr (List (ℤ × List Entry)) :=
  let tiles0 := nativeTiles img lowerLeft resolution hasher
  match tiles0.slice with
  | .error e => .error e
  | .ok es0 =>
    match downPhase minRes resolution tiles0 with
    | .error e => .error e
    | .ok (tiles1, downs) =>
      match upPhase maxRes resolution tiles1 with
      | .error e => .error e
      | .ok (_, ups) => .ok ((resolution, es0) :: (downs ++ ups))

section Helpers

/-- `int()` of an exact integer value is that integer. -/
theorem pyTrunc_intCast (z : ℤ) : pyTrunc (z : ℚ) = z := by
  unfold pyTrunc
  split_ifs with h
  · exact_mod_cast Int.floor_intCast z
  · rw [show (-(z : ℚ)) = ((-z : ℤ) : ℚ) by push_cast; ring, Int.floor_intCast]
    ring

/-- `int()` of an exact natural value is that natural. -/
theorem pyTrunc_natCast (n : ℕ) : pyTrunc (n : ℚ) = n := by
  rw [show ((n : ℚ)) = ((n : ℤ) : ℚ) by push_cast; ring, pyTrunc_intCast]

/-- Away from half-integer ties, rounding half away from zero agrees with
rounding half up. -/
theorem ceil_sub_half_eq (q : ℚ) (h : Int.fract q ≠ 1/2) :
    ⌈q - 1/2⌉ = ⌊q + 1/2⌋ := by
  have h1 : ((⌊q + 1/2⌋ : ℤ) : ℚ) ≤ q + 1/2 := Int.floor_le _
  have h2 : q + 1/2 < (⌊q + 1/2⌋ : ℚ) + 1 := Int.lt_floor_add_one _
  have h1' : ((⌊q + 1/2⌋ : ℤ) : ℚ) < q + 1/2 := by
    rcases lt_or_eq_of_le h1 with h' | h'
    · exact h'
    · exfalso
      apply h
      have hq : q = ((⌊q + 1/2⌋ : ℤ) : ℚ) - 1/2 := by linarith
      rw [hq, show ((⌊q + 1/2⌋ : ℤ) : ℚ) - 1/2 = -(1/2) + ((⌊q + 1/2⌋ : ℤ) : ℚ) by ring]
      rw [Int.fract_add_int]
      norm_num [Int.fract]
  rw [Int.ceil_eq_iff]
  constructor
  · linarith
  · linarith

/-- Python 2 `round` away from ties is floor of the value plus one half. -/
theorem pyRound_eq_floor (q : ℚ) (h : Int.fract q ≠ 1/2) :
    pyRound q = ⌊q + 1/2⌋ := by
  unfold pyRound
  split_ifs with h0
  · rfl
  · exact ceil_sub_half_eq q h

/-- Python 2 `round` of an exact integer is that integer. -/
theorem pyRound_intCast (z : ℤ) : pyRound (z : ℚ) = z := by
  unfold pyRound
  split_ifs with h
  · rw [show ((z : ℚ) + 1/2) = 1/2 + (z : ℚ) by ring, Int.floor_add_int]
    norm_num
  · rw [show ((z : ℚ) - 1/2) = -(1/2) + (z : ℚ) by ring, Int.ceil_add_int]
    norm_num

/-- Away from ties, Python 2 `round` commutes with subtraction from an
integer: `round(c - q) = c - round(q)`. -/
theorem pyRound_intCast_sub (c : ℤ) (q : ℚ) (h : Int.fract q ≠ 1/2) :
    pyRound ((c : ℚ) - q) = c - pyRound q := by
  have hf : Int.fract ((c : ℚ) - q) ≠ 1/2 := by
    rw [show ((c : ℚ) - q) = (c : ℚ) + (-q) by ring, Int.fract_int_add]
    by_cases h0 : Int.fract q = 0
    · rw [Int.fract_neg_eq_zero.mpr h0]
      norm_num
    · rw [Int.fract_neg h0]
      intro hc
      apply h
      linarith
  rw [pyRound_eq_floor _ hf, pyRound_eq_floor _ h]
  rw [show ((c : ℚ) - q + 1/2) = (1/2 - q) + (c : ℚ) by ring, Int.floor_add_int]
  rw [show ((1 : ℚ)/2 - q) = -(q - 1/2) by ring, Int.floor_neg, ceil_sub_half_eq q h]
  ring

end Helpers

/-- Claim C8: `stretch` fails with `InvalidScale` exactly when `xscale < 1.0`
or `yscale < 1.0`, and `shrink` fails with `InvalidScale` exactly when
`xscale` or `yscale` lies outside the half-open interval `(0.0, 1.0]`; a
failing call returns an error and produces no output image. -/
theorem scale_precondition_errors (img : VImage) (xscale yscale : ℚ) :
    (img.stretch xscale yscale = .error .invalidScale ↔ xscale < 1 ∨ yscale < 1) ∧
    (img.shrink xscale yscale = .error .invalidScale ↔
      ¬ (0 < xscale ∧ xscale ≤ 1) ∨ ¬ (0 < yscale ∧ yscale ≤ 1)) := by
  constructor
  · unfold VImage.stretch
    split_ifs with h1 h2 h3 h4 <;> simp_all
  · unfold VImage.shrink
    split_ifs with h1 h2 <;> simp_all

/-- Counterexample to claim C2 as stated: on a 2 by 2 image, `stretch(2, 2)`
produces a 4 by 4 image, not the 3 by 3 image the pixel-center formula
`(2W - 1, 2H - 1)` predicts. -/
theorem stretch_size_counterexample :
    ((VImage.mk 2 2 fun _ _ => 0).stretch 2 2).map (fun r => (r.Xsize, r.Ysize)) =
        .ok (4, 4) ∧
      (4, 4) ≠ (2 * 2 - 1, 2 * 2 - 1) := by
  constructor
  · with_unfolding_all rfl
  · decide

/-- Claim C2, amended: for every image with both dimensions at least 2 and
every integer scale `k` of at least 1, `stretch(k, k)` produces an output
image of size `(k * W, k * H)` - the code computes `int(W * k)`, not the
pixel-center size `k * W - (k - 1)`. -/
theorem stretch_output_size (img : VImage) (k : ℕ) (hW : 2 ≤ img.Xsize)
    (hH : 2 ≤ img.Ysize) (hk : 1 ≤ k) :
    (img.stretch (k : ℚ) (k : ℚ)).map (fun r => (r.Xsize, r.Ysize)) =
      .ok (k * img.Xsize, k * img.Ysize) := by
  unfold VImage.stretch
  have hk1 : ¬ ((k : ℚ) < 1) := by
    rw [not_lt]
    exact_mod_cast hk
  have hx : ¬ ((img.Xsize : ℤ) - 1 = 0) := by omega
  have hy : ¬ ((img.Ysize : ℤ) - 1 = 0) := by omega
  rw [if_neg hk1, if_neg hk1, if_neg hx, if_neg hy]
  simp only [Except.map, VImage.affine]
  have ex : pyTrunc ((img.Xsize : ℚ) * (k : ℚ)) = ((img.Xsize * k : ℕ) : ℤ) := by
    rw [show ((img.Xsize : ℚ) * (k : ℚ)) = ((img.Xsize * k : ℕ) : ℚ) by push_cast; ring]
    exact pyTrunc_natCast _
  have ey : pyTrunc ((img.Ysize : ℚ) * (k : ℚ)) = ((img.Ysize * k : ℕ) : ℤ) := by
    rw [show ((img.Ysize : ℚ) * (k : ℚ)) = ((img.Ysize * k : ℕ) : ℚ) by push_cast; ring]
    exact pyTrunc_natCast _
  rw [ex, ey]
  simp only [Except.ok.injEq, Prod.mk.injEq]
  constructor <;> rw [Int.toNat_natCast] <;> exact Nat.mul_comm _ _

/-- Witness for `stretch_output_size` at a 2 by 2 image and scale 2. -/
theorem stretch_output_size_witness :
    ((VImage.mk 2 2 fun _ _ => 0).stretch ((2 : ℕ) : ℚ) ((2 : ℕ) : ℚ)).map
        (fun r => (r.Xsize, r.Ysize)) =
      .ok (2 * 2, 2 * 2) :=
  stretch_output_size (VImage.mk 2 2 fun _ _ => 0) 2 (by decide) (by decide) (by decide)

/-- Counterexample to claim C9 as stated: with `tile_height = 256`,
`Ysize = 256` and `offset.y = 1/512` (so `offset.y * tile_height = 0.5`, an
exact tie), the code computes `round(256 - 0.5) mod 256 = 0`, while the
claimed formula `(256 - round(0.5)) mod 256` gives `255`. -/
theorem tms_align_y_tie_counterexample :
    tmsAlignY 256 256 (1/512) = 0 ∧
      ((256 : ℤ) - pyRound ((1/512 : ℚ) * 256)).emod 256 = 255 := by
  constructor
  · with_unfolding_all rfl
  · with_unfolding_all rfl

/-- Claim C9, amended: the top padding is `round(H - offset.y * tile_height)
mod tile_height`, rounding half away from zero after the subtraction; this
agrees with the claimed `(H - round(offset.y * tile_height)) mod tile_height`
whenever `offset.y * tile_height` is not an exact one-half tie, but can
differ at ties. -/
theorem tms_align_y_rounding (tile_height Ysize : ℕ) (offy : ℚ)
    (h : Int.fract (offy * tile_height) ≠ 1/2) :
    tmsAlignY tile_height Ysize offy =
      ((Ysize : ℤ) - pyRound (offy * tile_height)).emod tile_height := by
  unfold tmsAlignY
  rw [show ((Ysize : ℚ) - offy * tile_height) =
        (((Ysize : ℤ) : ℚ) - offy * tile_height) by push_cast; ring,
      pyRound_intCast_sub _ _ h]

/-- Witness for `tms_align_y_rounding` at `offset.y = 1/4`, away from a tie. -/
theorem tms_align_y_rounding_witness :
    Int.fract ((1/4 : ℚ) * 256) ≠ 1/2 ∧
      tmsAlignY 256 256 (1/4) = ((256 : ℤ) - pyRound ((1/4 : ℚ) * 256)).emod 256 :=
  ⟨by norm_num [Int.fract], tms_align_y_rounding 256 256 (1/4) (by norm_num [Int.fract])⟩

/-- The padding `x` of `tms_align` is nonnegative (Python `%` with a positive
modulus). -/
theorem tmsAlignX_nonneg (tile_width : ℕ) (htw : 0 < tile_width) (offx : ℚ) :
    0 ≤ tmsAlignX tile_width offx :=
  Int.emod_nonneg _ (by exact_mod_cast htw.ne')

/-- The padding `y` of `tms_align` is nonnegative. -/
theorem tmsAlignY_nonneg (tile_height Ysize : ℕ) (hth : 0 < tile_height) (offy : ℚ) :
    0 ≤ tmsAlignY tile_height Ysize offy :=
  Int.emod_nonneg _ (by exact_mod_cast hth.ne')

/-- The output extent of `tms_align` is the smallest multiple of the tile
side that is at least `size + pad / 2`, and it is nonnegative. -/
theorem tmsAlignW_spec (ts sz : ℕ) (pad : ℤ) (hts : 0 < ts) (hpad : 0 ≤ pad) :
    (sz : ℚ) + (pad : ℚ) / 2 ≤ ((tmsAlignW ts sz pad : ℤ) : ℚ) ∧
      ((tmsAlignW ts sz pad : ℤ) : ℚ) - ts < (sz : ℚ) + (pad : ℚ) / 2 ∧
      0 ≤ tmsAlignW ts sz pad := by
  have hts' : (0 : ℚ) < ts := by exact_mod_cast hts
  set q : ℚ := ((sz : ℚ) + (pad : ℚ) / 2) / ts with hq
  have hmul : q * ts = (sz : ℚ) + (pad : ℚ) / 2 := div_mul_cancel₀ _ hts'.ne'
  have hle : q ≤ ((⌈q⌉ : ℤ) : ℚ) := Int.le_ceil q
  have hlt : ((⌈q⌉ : ℤ) : ℚ) < q + 1 := Int.ceil_lt_add_one q
  have hq0 : 0 ≤ q := by
    apply div_nonneg _ hts'.le
    have : (0 : ℚ) ≤ (pad : ℚ) := by exact_mod_cast hpad
    positivity
  refine ⟨?_, ?_, ?_⟩
  · rw [← hmul]
    unfold tmsAlignW
    push_cast
    exact mul_le_mul_of_nonneg_right hle hts'.le
  · rw [← hmul]
    unfold tmsAlignW
    push_cast
    calc ((⌈q⌉ : ℤ) : ℚ) * ts - ts = (((⌈q⌉ : ℤ) : ℚ) - 1) * ts := by ring
    _ < q * ts := by
        apply mul_lt_mul_of_pos_right _ hts'
        linarith
  · unfold tmsAlignW
    exact mul_nonneg (Int.ceil_nonneg hq0) (by exact_mod_cast hts.le)

/-- If the computed output extent equals the input extent, the padding is
zero: the `size + pad / 2` inside the ceiling would otherwise push the
output strictly past `size`. -/
theorem tmsAlignW_eq_self (ts sz : ℕ) (pad : ℤ) (hts : 0 < ts) (hpad : 0 ≤ pad)
    (h : tmsAlignW ts sz pad = (sz : ℤ)) : pad = 0 := by
  obtain ⟨hle, -, -⟩ := tmsAlignW_spec ts sz pad hts hpad
  rw [h] at hle
  push_cast at hle
  have : (pad : ℚ) ≤ 0 := by linarith
  have : pad ≤ 0 := by exact_mod_cast this
  omega

/-- Claim C7: whenever the output dimensions computed in `tms_align` equal
the input dimensions, both computed paddings are zero, so the assertion in
the no-change branch never fails. -/
theorem tms_align_assert_safe (tile_width tile_height Xsize Ysize : ℕ)
    (offx offy : ℚ) (htw : 0 < tile_width) (hth : 0 < tile_height)
    (hw : tmsAlignW tile_width Xsize (tmsAlignX tile_width offx) = (Xsize : ℤ))
    (hh : tmsAlignW tile_height Ysize (tmsAlignY tile_height Ysize offy) = (Ysize : ℤ)) :
    tmsAlignX tile_width offx = 0 ∧ tmsAlignY tile_height Ysize offy = 0 :=
  ⟨tmsAlignW_eq_self _ _ _ htw (tmsAlignX_nonneg _ htw _) hw,
   tmsAlignW_eq_self _ _ _ hth (tmsAlignY_nonneg _ _ hth _) hh⟩

/-- Witness for `tms_align_assert_safe`: a 256 by 256 image on a 256-tile
grid at offset zero computes output extents equal to the input extents. -/
theorem tms_align_assert_safe_witness :
    tmsAlignW 256 256 (tmsAlignX 256 0) = (256 : ℤ) ∧
      tmsAlignX 256 0 = 0 ∧ tmsAlignY 256 256 0 = 0 :=
  ⟨by with_unfolding_all rfl,
   tms_align_assert_safe 256 256 256 256 0 0 (by decide) (by decide)
     (by with_unfolding_all rfl) (by with_unfolding_all rfl)⟩

/-- With zero padding and a tile side dividing the extent, the computed
output extent equals the input extent. -/
theorem tmsAlignW_zero (ts sz : ℕ) (hts : 0 < ts) (hd : ts ∣ sz) :
    tmsAlignW ts sz 0 = (sz : ℤ) := by
  obtain ⟨k, rfl⟩ := hd
  unfold tmsAlignW
  have hts' : (ts : ℚ) ≠ 0 := by exact_mod_cast hts.ne'
  rw [show (((0 : ℤ) : ℚ) / 2) = 0 by norm_num, add_zero]
  rw [show ((ts * k : ℕ) : ℚ) / (ts : ℚ) = (k : ℚ) by push_cast; field_simp]
  rw [Int.ceil_natCast]
  push_cast
  ring

/-- Counterexample to claim C6 as stated: a 100 by 256 image on a 256-tile
grid at offset `(0, 0)` computes paddings `(x, y) = (0, 0)`, yet `tms_align`
does not return the input unchanged - it pads the width up to 256. -/
theorem tms_align_identity_counterexample :
    tmsAlignX 256 (0 : ℚ) = 0 ∧ tmsAlignY 256 256 (0 : ℚ) = 0 ∧
      (VImage.mk 100 256 fun _ _ => 0).Xsize = 100 ∧
      ((VImage.mk 100 256 fun _ _ => 0).tms_align 256 256 (0, 0)).Xsize = 256 := by
  refine ⟨?_, ?_, rfl, ?_⟩ <;> with_unfolding_all rfl

/-- Claim C6, amended: if the paddings `(x, y)` computed in `tms_align` are
`(0, 0)` and the tile sides divide the image dimensions (so that the
computed output dimensions equal the input dimensions), `tms_align` returns
the input image itself, unchanged; without the divisibility the image is
still padded on the right and bottom. -/
theorem tms_align_identity (img : VImage) (tile_width tile_height : ℕ)
    (offset : ℚ × ℚ) (htw : 0 < tile_width) (hth : 0 < tile_height)
    (hdw : tile_width ∣ img.Xsize) (hdh : tile_height ∣ img.Ysize)
    (hx : tmsAlignX tile_width offset.1 = 0)
    (hy : tmsAlignY tile_height img.Ysize offset.2 = 0) :
    img.tms_align tile_width tile_height offset = img := by
  unfold VImage.tms_align
  dsimp only
  rw [hx, hy, tmsAlignW_zero _ _ htw hdw, tmsAlignW_zero _ _ hth hdh]
  rw [if_pos ⟨rfl, rfl⟩]

/-- Witness for `tms_align_identity` at a 256 by 256 image, tile side 256,
offset `(0, 0)`. -/
theorem tms_align_identity_witness :
    (VImage.mk 256 256 fun _ _ => 0).tms_align 256 256 (0, 0) =
      VImage.mk 256 256 fun _ _ => 0 :=
  tms_align_identity (VImage.mk 256 256 fun _ _ => 0) 256 256 (0, 0)
    (by decide) (by decide) (by decide) (by decide)
    (by with_unfolding_all rfl) (by with_unfolding_all rfl)

/-- The width of the image returned by `tms_align` is the (truncated)
computed output width, in both branches. -/
theorem tms_align_Xsize (img : VImage) (tile_width tile_height : ℕ)
    (offset : ℚ × ℚ) :
    (img.tms_align tile_width tile_height offset).Xsize =
      (tmsAlignW tile_width img.Xsize (tmsAlignX tile_width offset.1)).toNat := by
  unfold VImage.tms_align
  dsimp only
  split_ifs with h
  · rw [h.1]
    exact (Int.toNat_natCast _).symm
  · rfl

/-- The height of the image returned by `tms_align` is the (truncated)
computed output height, in both branches. -/
theorem tms_align_Ysize (img : VImage) (tile_width tile_height : ℕ)
    (offset : ℚ × ℚ) :
    (img.tms_align tile_width tile_height offset).Ysize =
      (tmsAlignW tile_height img.Ysize
        (tmsAlignY tile_height img.Ysize offset.2)).toNat := by
  unfold VImage.tms_align
  dsimp only
  split_ifs with h
  · rw [h.2]
    exact (Int.toNat_natCast _).symm
  · rfl

/-- Counterexample to claim C3 as stated: a 150 by 256 image on a 256-tile
grid with `offset.x = 25/32` computes left padding `x = 200`, and the
output width is 256 - which is smaller than `W + x = 350`, so it is not the
smallest multiple of the tile width that is at least `W + x`. -/
theorem tms_align_size_counterexample :
    tmsAlignX 256 (25/32 : ℚ) = 200 ∧
      ((VImage.mk 150 256 fun _ _ => 0).tms_align 256 256 (25/32, 0)).Xsize = 256 ∧
      ¬ (150 + 200 ≤ 256) := by
  refine ⟨?_, ?_, by decide⟩ <;> with_unfolding_all rfl

/-- Claim C3, amended: the output width of `tms_align` is the smallest
multiple of `tile_width` that is at least `W + x / 2` (not `W + x`), and the
output height is the smallest multiple of `tile_height` that is at least
`H + y / 2` (not `H + y`), where `x` and `y` are the computed paddings: the
code adds only half of each padding before taking the ceiling. -/
theorem tms_align_smallest_multiple (img : VImage) (tile_width tile_height : ℕ)
    (offset : ℚ × ℚ) (htw : 0 < tile_width) (hth : 0 < tile_height) :
    ((tile_width : ℤ) ∣ ((img.tms_align tile_width tile_height offset).Xsize : ℤ) ∧
      (img.Xsize : ℚ) + (tmsAlignX tile_width offset.1 : ℚ) / 2 ≤
        ((img.tms_align tile_width tile_height offset).Xsize : ℚ) ∧
      ((img.tms_align tile_width tile_height offset).Xsize : ℚ) - tile_width <
        (img.Xsize : ℚ) + (tmsAlignX tile_width offset.1 : ℚ) / 2) ∧
    ((tile_height : ℤ) ∣ ((img.tms_align tile_width tile_height offset).Ysize : ℤ) ∧
      (img.Ysize : ℚ) + (tmsAlignY tile_height img.Ysize offset.2 : ℚ) / 2 ≤
        ((img.tms_align tile_width tile_height offset).Ysize : ℚ) ∧
      ((img.tms_align tile_width tile_height offset).Ysize : ℚ) - tile_height <
        (img.Ysize : ℚ) + (tmsAlignY tile_height img.Ysize offset.2 : ℚ) / 2) := by
  obtain ⟨hle1, hlt1, hnn1⟩ :=
    tmsAlignW_spec tile_width img.Xsize (tmsAlignX tile_width offset.1) htw
      (tmsAlignX_nonneg _ htw _)
  obtain ⟨hle2, hlt2, hnn2⟩ :=
    tmsAlignW_spec tile_height img.Ysize (tmsAlignY tile_height img.Ysize offset.2)
      hth (tmsAlignY_nonneg _ _ hth _)
  have ew : (((img.tms_align tile_width tile_height offset).Xsize : ℤ)) =
      tmsAlignW tile_width img.Xsize (tmsAlignX tile_width offset.1) := by
    rw [tms_align_Xsize]
    exact Int.toNat_of_nonneg hnn1
  have eh : (((img.tms_align tile_width tile_height offset).Ysize : ℤ)) =
      tmsAlignW tile_height img.Ysize
        (tmsAlignY tile_height img.Ysize offset.2) := by
    rw [tms_align_Ysize]
    exact Int.toNat_of_nonneg hnn2
  have ewq : (((img.tms_align tile_width tile_height offset).Xsize : ℕ) : ℚ) =
      ((tmsAlignW tile_width img.Xsize (tmsAlignX tile_width offset.1) : ℤ) : ℚ) := by
    exact_mod_cast congrArg (fun z : ℤ => (z : ℚ)) ew
  have ehq : (((img.tms_align tile_width tile_height offset).Ysize : ℕ) : ℚ) =
      ((tmsAlignW tile_height img.Ysize
        (tmsAlignY tile_height img.Ysize offset.2) : ℤ) : ℚ) := by
    exact_mod_cast congrArg (fun z : ℤ => (z : ℚ)) eh
  refine ⟨⟨?_, ?_, ?_⟩, ⟨?_, ?_, ?_⟩⟩
  · rw [ew]
    exact Dvd.intro_left _ rfl
  · rw [ewq]
    exact hle1
  · rw [ewq]
    exact hlt1
  · rw [eh]
    exact Dvd.intro_left _ rfl
  · rw [ehq]
    exact hle2
  · rw [ehq]
    exact hlt2

/-- Witness for `tms_align_smallest_multiple` at the 150 by 256 image with
fractional offset `25/32`. -/
theorem tms_align_smallest_multiple_witness :
    ((256 : ℤ) ∣ (((VImage.mk 150 256 fun _ _ => 0).tms_align 256 256
        (25/32, 0)).Xsize : ℤ) ∧
      ((150 : ℚ) + (tmsAlignX 256 (25/32 : ℚ) : ℚ) / 2 ≤
        (((VImage.mk 150 256 fun _ _ => 0).tms_align 256 256 (25/32, 0)).Xsize : ℚ)) ∧
      ((((VImage.mk 150 256 fun _ _ => 0).tms_align 256 256 (25/32, 0)).Xsize : ℚ) - 256 <
        (150 : ℚ) + (tmsAlignX 256 (25/32 : ℚ) : ℚ) / 2)) ∧
    ((256 : ℤ) ∣ (((VImage.mk 150 256 fun _ _ => 0).tms_align 256 256
        (25/32, 0)).Ysize : ℤ) ∧
      ((256 : ℚ) + (tmsAlignY 256 256 (0 : ℚ) : ℚ) / 2 ≤
        (((VImage.mk 150 256 fun _ _ => 0).tms_align 256 256 (25/32, 0)).Ysize : ℚ)) ∧
      ((((VImage.mk 150 256 fun _ _ => 0).tms_align 256 256 (25/32, 0)).Ysize : ℚ) - 256 <
        (256 : ℚ) + (tmsAlignY 256 256 (0 : ℚ) : ℚ) / 2)) :=
  tms_align_smallest_multiple (VImage.mk 150 256 fun _ _ => 0) 256 256 (25/32, 0)
    (by decide) (by decide)

/-- Counterexample to claim C10 as stated: on a one-pixel image, `upsample`
to a strictly larger resolution does not return a new `TmsTiles` - the
`stretch` it performs raises `ZeroDivisionError` (division by `Xsize - 1`),
even though the target resolution 1 exceeds the current resolution 0. -/
theorem upsample_one_pixel_counterexample :
    ((0 : ℤ) < 1) ∧
      (TmsTiles.mk (VImage.mk 1 1 fun _ _ => 0) 256 256 (0, 0) (some 0)
          fun _ => 0).upsample 1 = .error .zeroDivision := by
  exact ⟨by decide, by with_unfolding_all rfl⟩

/-- Claim C10, amended: for a `TmsTiles` with positive tile sides at
resolution `r0` whose image is at least 2 by 2 pixels, `upsample` accepts
every target resolution strictly greater than `r0` (not only `r0 + 1`) and
returns a new `TmsTiles` with that resolution, offset multiplied by
`2 ^ (r - r0)` (the `int()` truncation is the identity on integers), and
image stretched by `2 ^ (r - r0)` and then TMS-aligned; for every target at
most `r0` the assertion fails.  On a one-pixel image the stretch raises
`ZeroDivisionError` instead, which is the correction to the claim.  The
positivity of the tile sides bounds the statement to where the `tms_align`
model is faithful: Python's `% tile_width` in `tms_align` raises
`ZeroDivisionError` on a zero tile side, which the total model does not
reproduce (in the program the tile sides are always `TILE_SIDE = 256`). -/
theorem upsample_behavior (t : TmsTiles) (r0 r : ℤ) (hres : t.resolution = some r0)
    (_htw : 0 < t.tile_width) (_hth : 0 < t.tile_height)
    (hW : 2 ≤ t.image.Xsize) (hH : 2 ≤ t.image.Ysize) :
    (r0 < r →
      ∃ s, t.image.stretch ((2 ^ (r - r0).toNat : ℤ) : ℚ)
            ((2 ^ (r - r0).toNat : ℤ) : ℚ) = .ok s ∧
        t.upsample r = .ok { t with
          image := s.tms_align t.tile_width t.tile_height
            (((t.offset.1 * 2 ^ (r - r0).toNat : ℤ) : ℚ),
             ((t.offset.2 * 2 ^ (r - r0).toNat : ℤ) : ℚ)),
          offset := (t.offset.1 * 2 ^ (r - r0).toNat,
                     t.offset.2 * 2 ^ (r - r0).toNat),
          resolution := some r }) ∧
    (r ≤ r0 → t.upsample r = .error .assertionError) := by
  constructor
  · intro hlt
    have hc : ¬ (((2 ^ (r - r0).toNat : ℤ) : ℚ) < 1) := by
      rw [not_lt]
      have h2 : (1 : ℤ) ≤ 2 ^ (r - r0).toNat := one_le_pow₀ (by norm_num)
      exact_mod_cast h2
    have hx1 : ¬ ((t.image.Xsize : ℤ) - 1 = 0) := by omega
    have hy1 : ¬ ((t.image.Ysize : ℤ) - 1 = 0) := by omega
    have hst : t.image.stretch ((2 ^ (r - r0).toNat : ℤ) : ℚ)
        ((2 ^ (r - r0).toNat : ℤ) : ℚ) =
        .ok (t.image.affine
          ((((pyTrunc ((t.image.Xsize : ℚ) * ((2 ^ (r - r0).toNat : ℤ) : ℚ))) : ℚ) - 1) /
            ((t.image.Xsize : ℚ) - 1))
          0 0
          ((((pyTrunc ((t.image.Ysize : ℚ) * ((2 ^ (r - r0).toNat : ℤ) : ℚ))) : ℚ) - 1) /
            ((t.image.Ysize : ℚ) - 1))
          0 0 0 0
          (pyTrunc ((t.image.Xsize : ℚ) * ((2 ^ (r - r0).toNat : ℤ) : ℚ))).toNat
          (pyTrunc ((t.image.Ysize : ℚ) * ((2 ^ (r - r0).toNat : ℤ) : ℚ))).toNat) := by
      unfold VImage.stretch
      rw [if_neg hc, if_neg hc]
      dsimp only
      rw [if_neg hx1, if_neg hy1]
    refine ⟨_, hst, ?_⟩
    unfold TmsTiles.upsample
    rw [hres]
    dsimp only
    rw [if_neg (not_le.mpr hlt), hst]
    rfl
  · intro hle
    unfold TmsTiles.upsample
    rw [hres]
    dsimp only
    rw [if_pos hle]

/-- Witness for `upsample_behavior`: a 2 by 2 image at resolution 0 with
offset `(3, 4)`, upsampled to resolution 1. -/
theorem upsample_behavior_witness :
    ∃ s, (VImage.mk 2 2 fun _ _ => 0).stretch
          ((2 ^ ((1 : ℤ) - 0).toNat : ℤ) : ℚ) ((2 ^ ((1 : ℤ) - 0).toNat : ℤ) : ℚ) =
        .ok s ∧
      (TmsTiles.mk (VImage.mk 2 2 fun _ _ => 0) 256 256 (3, 4) (some 0)
          fun _ => 0).upsample 1 =
        .ok { TmsTiles.mk (VImage.mk 2 2 fun _ _ => 0) 256 256 (3, 4) (some 0)
              (fun _ => 0) with
          image := s.tms_align 256 256
            ((((3 : ℤ) * 2 ^ ((1 : ℤ) - 0).toNat : ℤ) : ℚ),
             (((4 : ℤ) * 2 ^ ((1 : ℤ) - 0).toNat : ℤ) : ℚ)),
          offset := (3 * 2 ^ ((1 : ℤ) - 0).toNat, 4 * 2 ^ ((1 : ℤ) - 0).toNat),
          resolution := some 1 } :=
  (upsample_behavior
    (TmsTiles.mk (VImage.mk 2 2 fun _ _ => 0) 256 256 (3, 4) (some 0) fun _ => 0)
    0 1 rfl (by decide) (by decide) (by decide) (by decide)).1 (by decide)

/-- The dispatch fold of `TmsTile.render` agrees with the specification-level
description: threading a `seen` map whose contents are exactly the
first-seen paths of an already-dispatched prefix reproduces
first-tile-wins dedup by hash. -/
theorem renderAll_eq_renderSpec (hasher : List ℕ → ℕ) :
    ∀ (ts pre : List Tile) (seen : List (ℕ × TilePath)),
      (∀ h : ℕ, List.lookup h seen =
        (pre.find? fun t' => hasher t'.buf == h).map (fpOf hasher)) →
      renderAll hasher ts seen = renderSpec hasher pre ts := by
  intro ts
  induction ts with
  | nil => intro pre seen _; rfl
  | cons t ts ih =>
    intro pre seen hinv
    have hkey := hinv (hasher t.buf)
    unfold renderAll renderSpec
    cases hfind : pre.find? (fun t' => hasher t'.buf == hasher t.buf) with
    | some t' =>
      rw [hfind, Option.map_some'] at hkey
      rw [hkey]
      dsimp only
      congr 1
      apply ih (pre ++ [t]) seen
      intro h
      rw [hinv h, List.find?_append]
      by_cases hh : hasher t.buf = h
      · subst hh
        rw [hfind]
        rfl
      · have hf : (fun t' => hasher t'.buf == h) t = false := by
          simp [hh]
        cases hp : pre.find? (fun t' => hasher t'.buf == h) <;>
          simp [List.find?, hf]
    | none =>
      rw [hfind, Option.map_none'] at hkey
      rw [hkey]
      dsimp only
      congr 1
      apply ih (pre ++ [t]) ((hasher t.buf, fpOf hasher t) :: seen)
      intro h
      rw [List.find?_append]
      by_cases hh : hasher t.buf = h
      · subst hh
        rw [hfind]
        simp [List.lookup, List.find?]
      · have hf : (fun t' => hasher t'.buf == h) t = false := by
          simp [hh]
        have hne : (h == hasher t.buf) = false := by
          simp [Ne.symm hh]
        simp only [List.lookup, hne]
        rw [hinv h]
        cases hp : pre.find? (fun t' => hasher t'.buf == h) <;>
          simp [List.find?, hf]

/-- Counterexample to claim C4 as stated: with an injected constant hasher
(hash collisions), slicing a two-pixel image with one-pixel tiles makes the
second tile a symlink to the first tile's path even though their raw pixel
buffers differ - dedup is by hash equality, not bytewise buffer equality. -/
theorem dedup_hash_collision_counterexample :
    (TmsTiles.mk (VImage.mk 2 1 fun c _ => c) 1 1 (0, 0) none fun _ => 0)._slice =
        [.file ⟨none, (0, 0), 0⟩, .symlink ⟨none, (1, 0), 0⟩ ⟨none, (0, 0), 0⟩] ∧
      ((VImage.mk 2 1 fun c _ => c).extract_area 1 0 1 1).tobuffer ≠
        ((VImage.mk 2 1 fun c _ => c).extract_area 0 0 1 1).tobuffer := by
  constructor
  · with_unfolding_all rfl
  · decide

/-- Claim C4, amended: within a single slice of one level, a later tile is
written as a symlink pointing at an earlier tile's path if and only if the
two tiles' hash values are equal and the earlier tile is the first tile
with that hash - equivalently, the dispatched entries are exactly
`renderSpec`: each tile whose hash already occurred becomes a symlink to
the path of the first tile with that hash, and exactly the first tile of
each hash-equal group becomes a regular file.  Since the hasher is a
function, bytewise-equal buffers always dedup together, but an injected
colliding hasher also dedups distinct buffers, which corrects the
claimed "if and only if the raw pixel byte buffers are bytewise equal". -/
theorem slice_dedup_by_hash (t : TmsTiles) :
    t._slice = renderSpec t.hasher [] t.tileList :=
  renderAll_eq_renderSpec t.hasher t.tileList [] [] (fun _ => rfl)

/-- The dispatcher emits exactly one entry (file or symlink) per tile. -/
theorem renderAll_length (hasher : List ℕ → ℕ) (ts : List Tile) :
    ∀ seen, (renderAll hasher ts seen).length = ts.length := by
  induction ts with
  | nil => intro seen; rfl
  | cons t ts ih =>
    intro seen
    unfold renderAll
    cases List.lookup (hasher t.buf) seen <;> simp [ih]

/-- Each dispatched entry is written at its own tile's path. -/
theorem renderAll_map_fp (hasher : List ℕ → ℕ) (ts : List Tile) :
    ∀ seen, (renderAll hasher ts seen).map Entry.fp = ts.map (fpOf hasher) := by
  induction ts with
  | nil => intro seen; rfl
  | cons t ts ih =>
    intro seen
    unfold renderAll
    cases List.lookup (hasher t.buf) seen <;> simp [ih, Entry.fp]


/-- Under divisibility, `xrange(0, size, step)` is exactly `size / step`
multiples of `step`. -/
theorem pyRangeN_dvd (sz ts : ℕ) (h : 0 < ts) (hd : ts ∣ sz) :
    pyRangeN sz ts = (List.range (sz / ts)).map (· * ts) := by
  obtain ⟨k, rfl⟩ := hd
  unfold pyRangeN
  have e1 : ts * k + ts - 1 = (ts - 1) + k * ts := by
    rw [Nat.mul_comm ts k]
    omega
  have e2 : (ts * k + ts - 1) / ts = k := by
    rw [e1, Nat.add_mul_div_right _ _ h, Nat.div_eq_of_lt (by omega)]
    omega
  have e3 : ts * k / ts = k := Nat.mul_div_cancel_left k h
  rw [e2, e3]

/-- The TMS offset of the tile extracted at grid cell `(i, j)`: the divisions
in `_slice` are exact under the whole-tile divisibility invariant, so the
truncations are identities. -/
theorem tileFor_off (t : TmsTiles) (i j : ℕ) (htw : 0 < t.tile_width)
    (hth : 0 < t.tile_height) (hdh : t.tile_height ∣ t.image.Ysize) :
    (t.tileFor (i * t.tile_width) (j * t.tile_height)).off =
      ((i : ℤ) + t.offset.1,
       ((t.image.Ysize / t.tile_height : ℕ) : ℤ) - (j : ℤ) + t.offset.2 - 1) := by
  obtain ⟨m, hm⟩ := hdh
  have htw' : ((t.tile_width : ℚ)) ≠ 0 := by exact_mod_cast htw.ne'
  have hth' : ((t.tile_height : ℚ)) ≠ 0 := by exact_mod_cast hth.ne'
  unfold TmsTiles.tileFor
  dsimp only
  rw [Prod.mk.injEq]
  constructor
  · rw [show (((i * t.tile_width : ℕ) : ℚ) / (t.tile_width : ℚ) + (t.offset.1 : ℚ)) =
        (((i : ℤ) + t.offset.1 : ℤ) : ℚ) by
      push_cast
      rw [mul_div_assoc, div_self htw', mul_one]]
    exact pyTrunc_intCast _
  · have hdiv : t.image.Ysize / t.tile_height = m := by
      rw [hm, Nat.mul_div_cancel_left m hth]
    rw [hdiv]
    rw [show (((t.image.Ysize : ℚ) - ((j * t.tile_height : ℕ) : ℚ)) / (t.tile_height : ℚ) +
          (t.offset.2 : ℚ) - 1) = (((m : ℤ) - (j : ℤ) + t.offset.2 - 1 : ℤ) : ℚ) by
      rw [hm]
      push_cast
      rw [show ((t.tile_height : ℚ) * (m : ℚ) - (j : ℚ) * (t.tile_height : ℚ)) =
            (((m : ℚ) - (j : ℚ)) * (t.tile_height : ℚ)) by ring]
      rw [mul_div_assoc, div_self hth', mul_one]]
    exact pyTrunc_intCast _

/-- The row-major TMS offsets of every tile of one slice. -/
theorem tileList_map_off (t : TmsTiles) (htw : 0 < t.tile_width)
    (hth : 0 < t.tile_height) (hdw : t.tile_width ∣ t.image.Xsize)
    (hdh : t.tile_height ∣ t.image.Ysize) :
    t.tileList.map (fun tile => tile.off) =
      (List.range (t.image.Ysize / t.tile_height)).flatMap fun (j : ℕ) =>
        (List.range (t.image.Xsize / t.tile_width)).map fun (i : ℕ) =>
          ((i : ℤ) + t.offset.1,
           ((t.image.Ysize / t.tile_height : ℕ) : ℤ) - (j : ℤ) + t.offset.2 - 1) := by
  unfold TmsTiles.tileList
  rw [pyRangeN_dvd _ _ hth hdh, pyRangeN_dvd _ _ htw hdw]
  rw [List.map_flatMap, List.flatMap_map]
  congr 1
  funext j
  rw [List.map_map, List.map_map]
  congr 1
  funext i
  exact tileFor_off t i j htw hth hdh

/-- Claim C5: for a tile size dividing both image dimensions, `slice`
succeeds and dispatches exactly `(W / tile_width) * (H / tile_height)`
output entries (files plus symlinks combined), one per grid cell, in
row-major top-to-bottom, left-to-right order. -/
theorem slice_count_and_order (t : TmsTiles) (htw : 0 < t.tile_width)
    (hth : 0 < t.tile_height) (hdw : t.tile_width ∣ t.image.Xsize)
    (hdh : t.tile_height ∣ t.image.Ysize) :
    t.slice = .ok t._slice ∧
      t._slice.length =
        (t.image.Xsize / t.tile_width) * (t.image.Ysize / t.tile_height) ∧
      t._slice.map (fun e => e.fp.off) =
        ((List.range (t.image.Ysize / t.tile_height)).flatMap fun (j : ℕ) =>
          (List.range (t.image.Xsize / t.tile_width)).map fun (i : ℕ) =>
            ((i : ℤ) + t.offset.1,
             ((t.image.Ysize / t.tile_height : ℕ) : ℤ) - (j : ℤ) + t.offset.2 - 1)) := by
  refine ⟨?_, ?_, ?_⟩
  · unfold TmsTiles.slice
    rw [if_neg htw.ne', if_neg hth.ne']
    rw [if_neg (by simp [Nat.mod_eq_zero_of_dvd hdw]),
        if_neg (by simp [Nat.mod_eq_zero_of_dvd hdh])]
  · unfold TmsTiles._slice
    rw [renderAll_length]
    have e0 : t.tileList.length = (t.tileList.map (fun tile => tile.off)).length :=
      (List.length_map _ _).symm
    rw [e0, tileList_map_off t htw hth hdw hdh, List.length_flatMap]
    simp only [Function.comp_def, List.length_map, List.length_range]
    rw [List.map_const', List.sum_replicate, List.length_range, smul_eq_mul,
        Nat.mul_comm]
  · have e1 : t._slice.map (fun e => e.fp.off) =
        (t._slice.map Entry.fp).map TilePath.off := by
      rw [List.map_map]
      rfl
    rw [e1]
    unfold TmsTiles._slice
    rw [renderAll_map_fp]
    have e2 : (t.tileList.map (fpOf t.hasher)).map TilePath.off =
        t.tileList.map (fun tile => tile.off) := by
      rw [List.map_map]
      rfl
    rw [e2]
    exact tileList_map_off t htw hth hdw hdh

/-- A concrete 2 by 2 image sliced with one-pixel tiles, for the witness
of `slice_count_and_order`. -/
def sliceWitnessTiles : TmsTiles :=
  ⟨⟨2, 2, fun c r => c + r⟩, 1, 1, (5, 7), some 3, fun b => b.sum⟩

/-- Witness for `slice_count_and_order` on the 2 by 2 image with one-pixel
tiles: four entries, offsets enumerated row-major. -/
theorem slice_count_and_order_witness :
    sliceWitnessTiles.slice = .ok sliceWitnessTiles._slice ∧
      sliceWitnessTiles._slice.length = 4 ∧
      sliceWitnessTiles._slice.map (fun e => e.fp.off) =
        ((List.range 2).flatMap fun (j : ℕ) => (List.range 2).map fun (i : ℕ) =>
          ((i : ℤ) + 5, ((2 : ℕ) : ℤ) - (j : ℤ) + 7 - 1)) :=
  slice_count_and_order sliceWitnessTiles (by decide) (by decide)
    (by decide) (by decide)

/-- `TmsTiles.slice` can only fail with the divisibility `ValueError` or a
zero-tile `ZeroDivisionError`, never with a resolution error. -/
theorem slice_no_invalid_resolution (t : TmsTiles) :
    t.slice ≠ .error .invalidResolution := by
  unfold TmsTiles.slice
  split_ifs <;> simp

/-- `shrink` can only fail with the scale `ValueError`. -/
theorem shrink_error_scale (img : VImage) (xs ys : ℚ) (e : VErr)
    (h : img.shrink xs ys = .error e) : e = .invalidScale := by
  unfold VImage.shrink at h
  split_ifs at h <;> simp_all

/-- `stretch` can only fail with the scale `ValueError` or the
one-pixel `ZeroDivisionError`. -/
theorem stretch_error_cases (img : VImage) (xs ys : ℚ) (e : VErr)
    (h : img.stretch xs ys = .error e) : e = .invalidScale ∨ e = .zeroDivision := by
  unfold VImage.stretch at h
  split_ifs at h <;> simp_all

/-- `downsample` never fails with a resolution-range error: its own checks
raise `AssertionError` or `TypeError`, and the inner `shrink` raises only
the scale error. -/
theorem downsample_no_invalid_resolution (t : TmsTiles) (r : ℤ) :
    t.downsample r ≠ .error .invalidResolution := by
  unfold TmsTiles.downsample
  split_ifs with h1
  · simp
  · cases hres : t.resolution with
    | none => simp
    | some r0 =>
      dsimp only
      split_ifs with h2
      · simp
      · cases hs : t.image.shrink (1/2) (1/2) with
        | error e =>
          have he := shrink_error_scale _ _ _ e hs
          simp [hs, Except.map, he]
        | ok s => simp [hs, Except.map]

/-- `upsample` never fails with a resolution-range error: its own checks
raise `AssertionError` or `TypeError`, and the inner `stretch` raises only
the scale or division errors. -/
theorem upsample_no_invalid_resolution (t : TmsTiles) (r : ℤ) :
    t.upsample r ≠ .error .invalidResolution := by
  unfold TmsTiles.upsample
  cases hres : t.resolution with
  | none => simp
  | some r0 =>
    dsimp only
    split_ifs with h1
    · simp
    · cases hs : t.image.stretch ((2 ^ (r - r0).toNat : ℤ) : ℚ)
          ((2 ^ (r - r0).toNat : ℤ) : ℚ) with
      | error e =>
        rcases stretch_error_cases _ _ _ e hs with he | he <;>
          simp [hs, Except.map, he]
      | ok s => simp [hs, Except.map]

/-- A level loop whose step never fails with a resolution error never fails
with a resolution error itself: slicing cannot produce one either. -/
theorem runLevels_no_invalid_resolution (step : TmsTiles → ℤ → Except VErr TmsTiles)
    (hstep : ∀ t r, step t r ≠ .error .invalidResolution) :
    ∀ (rs : List ℤ) (t : TmsTiles),
      runLevels step rs t ≠ .error .invalidResolution := by
  intro rs
  induction rs with
  | nil => intro t; simp [runLevels]
  | cons r rs ih =>
    intro t
    unfold runLevels
    cases hs : step t r with
    | error e =>
      intro hc
      injection hc with he
      exact hstep t r (by rw [hs, he])
    | ok t' =>
      dsimp only
      cases hsl : t'.slice with
      | error e =>
        dsimp only
        intro hc
        injection hc with he
        exact slice_no_invalid_resolution t' (by rw [hsl, he])
      | ok es =>
        dsimp only
        cases hr : runLevels step rs t' with
        | error e =>
          dsimp only
          intro hc
          injection hc with he
          exact ih t' (by rw [hr, he])
        | ok pr =>
          dsimp only
          cases pr
          simp

/-- The downsample phase never fails with a resolution error. -/
theorem downPhase_no_invalid_resolution (minRes : Option ℤ) (resolution : ℤ)
    (t : TmsTiles) : downPhase minRes resolution t ≠ .error .invalidResolution := by
  unfold downPhase
  cases minRes with
  | none => simp
  | some m =>
    exact runLevels_no_invalid_resolution _
      (fun t' r => downsample_no_invalid_resolution t' r) _ t

/-- The upsample phase never fails with a resolution error. -/
theorem upPhase_no_invalid_resolution (maxRes : Option ℤ) (resolution : ℤ)
    (t : TmsTiles) : upPhase maxRes resolution t ≠ .error .invalidResolution := by
  unfold upPhase
  cases maxRes with
  | none => simp
  | some M =>
    exact runLevels_no_invalid_resolution _
      (fun t' r => upsample_no_invalid_resolution t' r) _ t

/-- An integer `range(a, b)` with `b ≤ a` is empty. -/
theorem pyRangeZ_empty (a b : ℤ) (h : b ≤ a) : pyRangeZ a b = [] := by
  unfold pyRangeZ
  rw [Int.toNat_of_nonpos (by omega)]
  rfl

/-- Counterexample to claim C1 as stated: with native resolution 2 and
`min_resolution = 3` (greater than native), `image_pyramid` does not fail
with `InvalidResolution` before writing tiles - it completes successfully,
the native level is sliced and its tile dispatched, and the downsample loop
is silently empty. -/
theorem image_pyramid_invalid_range_runs :
    ((2 : ℤ) < 3) ∧
      image_pyramid (VImage.mk 256 256 fun _ _ => 0) (0, 0) 2 (some 3) none
          (fun _ => 0) =
        .ok [(2, [.file ⟨some 2, (0, 0), 0⟩])] := by
  exact ⟨by decide, by with_unfolding_all rfl⟩

/-- Claim C1, amended: `image_pyramid` performs no validation of
`min_resolution` or `max_resolution` against the native resolution and can
never fail with `InvalidResolution`; when `min_resolution` exceeds the
native resolution or `max_resolution` is below it, the corresponding
resample loop is simply empty (an empty Python `range`), so the run is
exactly the native-level slice and its tiles are still written. -/
theorem image_pyramid_no_resolution_validation :
    (∀ (img : VImage) (ll : ℤ × ℤ) (res : ℤ) (minRes maxRes : Option ℤ)
        (hasher : List ℕ → ℕ),
        image_pyramid img ll res minRes maxRes hasher ≠ .error .invalidResolution) ∧
    (∀ (img : VImage) (ll : ℤ × ℤ) (res minr : ℤ) (hasher : List ℕ → ℕ),
        res < minr →
        image_pyramid img ll res (some minr) none hasher =
          ((nativeTiles img ll res hasher).slice).map fun es => [(res, es)]) ∧
    (∀ (img : VImage) (ll : ℤ × ℤ) (res maxr : ℤ) (hasher : List ℕ → ℕ),
        maxr < res →
        image_pyramid img ll res none (some maxr) hasher =
          ((nativeTiles img ll res hasher).slice).map fun es => [(res, es)]) ∧
    (∀ (img : VImage) (ll : ℤ × ℤ) (res minr maxr : ℤ) (hasher : List ℕ → ℕ),
        res < minr → maxr < res →
        image_pyramid img ll res (some minr) (some maxr) hasher =
          ((nativeTiles img ll res hasher).slice).map fun es => [(res, es)]) := by
  have hd_empty : ∀ (m res : ℤ), res < m → ∀ t : TmsTiles,
      downPhase (some m) res t = .ok (t, []) := by
    intro m res h t
    unfold downPhase
    dsimp only
    rw [pyRangeZ_empty m res (le_of_lt h)]
    rfl
  have hu_empty : ∀ (M res : ℤ), M < res → ∀ t : TmsTiles,
      upPhase (some M) res t = .ok (t, []) := by
    intro M res h t
    unfold upPhase
    dsimp only
    rw [pyRangeZ_empty (res + 1) (M + 1) (by omega)]
    rfl
  have hmain : ∀ (img : VImage) (ll : ℤ × ℤ) (res : ℤ)
      (minRes maxRes : Option ℤ) (hasher : List ℕ → ℕ),
      downPhase minRes res (nativeTiles img ll res hasher) =
        .ok (nativeTiles img ll res hasher, []) →
      upPhase maxRes res (nativeTiles img ll res hasher) =
        .ok (nativeTiles img ll res hasher, []) →
      image_pyramid img ll res minRes maxRes hasher =
        ((nativeTiles img ll res hasher).slice).map fun es => [(res, es)] := by
    intro img ll res minRes maxRes hasher hd hu
    unfold image_pyramid
    dsimp only
    cases h0 : (nativeTiles img ll res hasher).slice with
    | error e =>
      dsimp only
      simp [Except.map]
    | ok es0 =>
      dsimp only
      rw [hd]
      dsimp only
      rw [hu]
      simp [Except.map]
  refine ⟨?_, ?_, ?_, ?_⟩
  · intro img ll res minRes maxRes hasher
    unfold image_pyramid
    dsimp only
    cases h0 : (nativeTiles img ll res hasher).slice with
    | error e =>
      dsimp only
      intro hc
      injection hc with he
      exact slice_no_invalid_resolution _ (by rw [h0, he])
    | ok es0 =>
      dsimp only
      cases h1 : downPhase minRes res (nativeTiles img ll res hasher) with
      | error e =>
        dsimp only
        intro hc
        injection hc with he
        exact downPhase_no_invalid_resolution _ _ _ (by rw [h1, he])
      | ok pr =>
        cases pr with
        | mk tiles1 downs =>
          dsimp only
          cases h2 : upPhase maxRes res tiles1 with
          | error e =>
            dsimp only
            intro hc
            injection hc with he
            exact upPhase_no_invalid_resolution _ _ _ (by rw [h2, he])
          | ok pr2 =>
            cases pr2
            dsimp only
            simp
  · intro img ll res minr hasher h
    exact hmain img ll res (some minr) none hasher (hd_empty minr res h _) rfl
  · intro img ll res maxr hasher h
    exact hmain img ll res none (some maxr) hasher rfl (hu_empty maxr res h _)
  · intro img ll res minr maxr hasher h1 h2
    exact hmain img ll res (some minr) (some maxr) hasher
      (hd_empty minr res h1 _) (hu_empty maxr res h2 _)

/-- Witness for `image_pyramid_no_resolution_validation`: native resolution
2 with `min_resolution = 3` and `max_resolution = 1` runs as exactly the
native-level slice. -/
theorem image_pyramid_no_resolution_validation_witness :
    ((2 : ℤ) < 3) ∧ ((1 : ℤ) < 2) ∧
      image_pyramid (VImage.mk 256 256 fun _ _ => 0) (0, 0) 2 (some 3) (some 1)
          (fun _ => 0) =
        ((nativeTiles (VImage.mk 256 256 fun _ _ => 0) (0, 0) 2 (fun _ => 0)).slice).map
          fun es => [((2 : ℤ), es)] :=
  ⟨by decide, by decide,
   image_pyramid_no_resolution_validation.2.2.2 (VImage.mk 256 256 fun _ _ => 0)
     (0, 0) 2 3 1 (fun _ => 0) (by decide) (by decide)⟩
